import Mathlib

/-!
# VoltAssistant Decision & Balancing Engine — verification development

Shallow embedding of the decision logic of the `voltassistant-loadmanager`
Home Assistant addon (`server.js`, `forecast.js`).  JavaScript numbers are
modelled as rationals (`ℚ`); JavaScript's falsy-default idiom `x || d` is
modelled by `jsOr`/`jsOrQ`; `Math.round` by `jsRound`.  Fallible external
commands (`turnOn`/`turnOff`) are modelled by a success oracle
`ok : Load → Bool`.
-/

namespace VoltAssistant

/-- JS `x || d` where `x` is an optional numeric value: `undefined`, `null`
and `0` are falsy and select the default `d`. -/
def jsOr (x : Option ℚ) (d : ℚ) : ℚ :=
  match x with
  | none => d
  | some v => if v = 0 then d else v

/-- JS `x || d` on a plain number: `0` is falsy and selects the default. -/
def jsOrQ (x : ℚ) (d : ℚ) : ℚ :=
  if x = 0 then d else x

/-- JS `Math.round`: round half toward `+∞`. -/
def jsRound (q : ℚ) : ℤ :=
  ⌊q + 1/2⌋

/-- Truthiness of an optional JS string (`undefined`/`null`/`""` are falsy). -/
def jsTruthyStr : Option String → Bool
  | none => false
  | some s => !s.isEmpty

/-!
## Target-SOC decision engine (`server.js`, `decideCharging`)
-/

/-- The `battery_optimization` configuration block read by `batOpt()`. -/
structure BatOpt where
  enabled : Bool
  default_target_soc : Option ℚ
  min_soc : Option ℚ
  always_charge_below_price : Option ℚ
  never_charge_above_price : Option ℚ
  keep_full_weekends : Bool
deriving DecidableEq, Repr

/-- The slice of the mutable `state` object that `decideCharging` reads and
writes: the manual override, its expiry timestamp (epoch instant), the current
price reading (nullable) and the battery SOC. -/
structure ChargeState where
  manualTargetSoc : Option ℚ
  manualTargetExpiry : Option ℤ
  currentPrice : Option ℚ
  soc : ℚ
deriving DecidableEq, Repr

/-- The expiry check at the top of `decideCharging`:
`if (state.manualTargetExpiry && new Date(state.manualTargetExpiry) < new Date())`
clears both override fields and calls `saveState()`.  Returns the updated
state together with whether `saveState()` was invoked. -/
def clearExpiredTarget (now : ℤ) (s : ChargeState) : ChargeState × Bool :=
  match s.manualTargetExpiry with
  | some e =>
    if e < now then
      ({ s with manualTargetSoc := none, manualTargetExpiry := none }, true)
    else (s, false)
  | none => (s, false)

/-- The target-SOC cascade of `decideCharging` (after the expiry check):
manual override, weekend keep-full, the three price branches, and the
`default_target_soc || 80` initial value that survives when the price is
unknown. -/
def targetSocOf (opt : BatOpt) (weekend : Bool) (s : ChargeState) : ℚ :=
  match s.manualTargetSoc with
  | some m => m
  | none =>
    if weekend && opt.keep_full_weekends then 100
    else
      match s.currentPrice with
      | some p =>
        if p ≤ jsOr opt.always_charge_below_price (5/100) then 100
        else if jsOr opt.never_charge_above_price (15/100) ≤ p then
          jsOr opt.min_soc 10
        else
          let minP := jsOr opt.always_charge_below_price (5/100)
          let maxP := jsOr opt.never_charge_above_price (15/100)
          let ratio := (p - minP) / (maxP - minP)
          ((jsRound (100 - ratio * (100 - jsOr opt.min_soc 10)) : ℤ) : ℚ)
      | none => jsOr opt.default_target_soc 80

/-- The decision component of `decideCharging`'s return value. -/
inductive Decision
  | idle
  | charge
  | hold
deriving DecidableEq, Repr

/-- Return value of `decideCharging`, together with the updated state and
whether the expired override was cleared and persisted. -/
structure ChargingResult where
  decision : Decision
  targetSoc : ℚ
  newState : ChargeState
  persisted : Bool
deriving DecidableEq, Repr

/-- `decideCharging` from `server.js`: bail out when optimization is
disabled, clear an expired manual override (persisting that fact), run the
target-SOC cascade, then compare the SOC against the target with the
2-point hysteresis band. -/
def decideCharging (opt : BatOpt) (weekend : Bool) (now : ℤ) (s : ChargeState) :
    ChargingResult :=
  if !opt.enabled then ⟨.idle, s.soc, s, false⟩
  else
    let cl := clearExpiredTarget now s
    let t := targetSocOf opt weekend cl.1
    if cl.1.soc < t - 2 then ⟨.charge, t, cl.1, cl.2⟩
    else ⟨.hold, t, cl.1, cl.2⟩

/-- The target SOC as a function of a known price, with no manual override
and outside the weekend keep-full case (the situation quantified over in the
price-response properties). -/
def targetAtPrice (opt : BatOpt) (p : ℚ) : ℚ :=
  targetSocOf opt false ⟨none, none, some p, 0⟩

/-- The tariff-period tag produced by `getCurrentPeriod`. -/
inductive Period
  | valle
  | llano
  | punta
deriving DecidableEq, Repr

/-- `getCurrentPeriod` from `server.js`: weekends and 00:00–08:00 are
`valle`, the weekday windows 10:00–14:00 and 18:00–22:00 are `punta`,
everything else is `llano`. -/
def getCurrentPeriod (weekend : Bool) (hour : ℕ) : Period :=
  if weekend then .valle
  else if hour < 8 then .valle
  else if (10 ≤ hour ∧ hour < 14) ∨ (18 ≤ hour ∧ hour < 22) then .punta
  else .llano

/-- Per-period preconfigured target SOC from the server's shipped default
configuration (`tariff_periods`: valle `target_soc: 100`, llano `50`,
punta `20`). -/
def defaultPeriodTargetSoc : Period → ℚ
  | .valle => 100
  | .llano => 50
  | .punta => 20

/-!
## Load shedding / restoration engine (`server.js`, `balanceLoads`)
-/

/-- Load priority tiers. -/
inductive Priority
  | essential
  | comfort
  | accessory
deriving DecidableEq, Repr

/-- An entry of `state.loads` as built by `updateState`: the configured load
enriched with the live `current_power` and `is_on` readings. -/
structure Load where
  id : ℕ
  priority : Priority
  switch_entity : Option String
  is_on : Bool
  current_power : ℚ
  max_power : Option ℚ
deriving DecidableEq, Repr

/-- Power credited when a load is shed:
`load.current_power || load.max_power || 1000`. -/
def shedPower (l : Load) : ℚ :=
  jsOrQ l.current_power (jsOr l.max_power 1000)

/-- The candidate filter of the overload branch:
`l.priority === priority && l.switch_entity && l.is_on && !state.shedLoads.includes(l.id)`. -/
def shedCandidate (shed : List ℕ) (pr : Priority) (l : Load) : Bool :=
  l.priority == pr && jsTruthyStr l.switch_entity && l.is_on && !(shed.contains l.id)

/-- The inner loop of the overload branch over one tier's candidate list:
stop once `saved ≥ excess`; otherwise attempt `turnOff` (the oracle `ok`) and
on success accumulate the load's power and append its id to `shedLoads`. -/
def shedTier (ok : Load → Bool) (excess : ℚ) :
    List Load → ℚ × List ℕ → ℚ × List ℕ
  | [], acc => acc
  | l :: ls, acc =>
    if excess ≤ acc.1 then acc
    else if ok l then shedTier ok excess ls (acc.1 + shedPower l, acc.2 ++ [l.id])
    else shedTier ok excess ls acc

/-- The overload branch of `balanceLoads`: iterate the tiers
`['accessory', 'comfort']`, filtering each tier's candidates against the
shed list as updated by the previous tier, with an early exit once
`saved ≥ excess`.  Returns the final `(saved, shedLoads)`. -/
def shedOverload (ok : Load → Bool) (loads : List Load) (shed0 : List ℕ)
    (excess : ℚ) : ℚ × List ℕ :=
  [Priority.accessory, Priority.comfort].foldl
    (fun acc pr =>
      if excess ≤ acc.1 then acc
      else shedTier ok excess (loads.filter (shedCandidate acc.2 pr)) acc)
    (0, shed0)

/-- The loop body of the restoration branch, iterating over a snapshot
`[...state.shedLoads]` while filtering ids out of the live shed list: a load
is restored when it is found in `state.loads`, its
`(load.max_power || 1000) ≤ headroom * 0.8`, and `turnOn` succeeds.
The second component records the successful `turnOn` actions in order. -/
def restoreGo (ok : Load → Bool) (loads : List Load) (headroom : ℚ) :
    List ℕ → List ℕ → List ℕ → List ℕ × List ℕ
  | [], shed, acts => (shed, acts)
  | i :: rest, shed, acts =>
    match loads.find? (fun l => l.id == i) with
    | some l =>
      if jsOr l.max_power 1000 ≤ headroom * (8/10) then
        if ok l then restoreGo ok loads headroom rest (shed.filter (· ≠ i)) (acts ++ [i])
        else restoreGo ok loads headroom rest shed acts
      else restoreGo ok loads headroom rest shed acts
    | none => restoreGo ok loads headroom rest shed acts

/-- The restoration branch of `balanceLoads` (run when there is no overload
and `shedLoads` is non-empty), with `headroom = maxAvailable − load power`
computed once before the loop. -/
def restoreShed (ok : Load → Bool) (loads : List Load) (shed0 : List ℕ)
    (headroom : ℚ) : List ℕ × List ℕ :=
  restoreGo ok loads headroom shed0 shed0 []

/-!
## Forecast-based charging planner (`forecast.js`, `generateChargingPlan`)
-/

/-- An entry of `prices.today.prices`. -/
structure PricePoint where
  hour : ℕ
  price : ℚ
deriving DecidableEq, Repr

/-- An entry of `solar.today.forecasts`. -/
structure SolarPoint where
  hour : ℕ
  watts : ℚ
deriving DecidableEq, Repr

/-- The battery snapshot argument of `generateChargingPlan`; every field is
defaulted through `||`. -/
structure BatterySnapshot where
  capacityKwh : Option ℚ
  currentSoc : Option ℚ
  targetSoc : Option ℚ
  chargeRateKw : Option ℚ
deriving DecidableEq, Repr

/-- The `action` field of a charging plan. -/
inductive PlanAction
  | hold
  | wait_for_solar
  | charge_now
  | wait_for_cheap
deriving DecidableEq, Repr

/-- The claim-relevant fields of the object returned by
`generateChargingPlan`. -/
structure ChargingPlan where
  action : PlanAction
  chargeHours : List ℕ
  nextChargeHour : Option ℕ
  estimatedCost : ℚ
deriving DecidableEq, Repr

/-- JS rounding to 2 decimals at the output boundary:
`Math.round(x * 100) / 100`. -/
def jsRound2 (q : ℚ) : ℚ :=
  ((jsRound (q * 100) : ℤ) : ℚ) / 100

/-- `neededKwh = (targetSoc - currentSoc) / 100 * capacity`. -/
def neededKwhOf (battery : BatterySnapshot) : ℚ :=
  (jsOr battery.targetSoc 80 - jsOr battery.currentSoc 50) / 100 *
    jsOr battery.capacityKwh (163/5)

/-- `remainingSolarToday`: the forecast watts of today's hours `≥ hour`,
summed and divided by 1000. -/
def remainingSolarOf (solar : List SolarPoint) (hour : ℕ) : ℚ :=
  ((solar.filter (fun f => hour ≤ f.hour)).map (·.watts)).sum / 1000

/-- `futurePrices = todayPrices.filter(p => p.hour >= hour)`. -/
def futurePricesOf (prices : List PricePoint) (hour : ℕ) : List PricePoint :=
  prices.filter (fun p => hour ≤ p.hour)

/-- `hoursNeeded = Math.ceil(neededFromGrid / chargeRate)` (as a length for
`slice`, clamped at `0`). -/
def hoursNeededOf (battery : BatterySnapshot) (solar : List SolarPoint)
    (hour : ℕ) : ℕ :=
  (⌈(max 0 (neededKwhOf battery - remainingSolarOf solar hour)) /
      jsOr battery.chargeRateKw 6⌉).toNat

/-- `chargeHours = sorted.slice(0, hoursNeeded)` where `sorted` is
`futurePrices` sorted ascending by price (JS `Array.prototype.sort` is
stable, as is `List.mergeSort`). -/
def chargeSelection (prices : List PricePoint) (solar : List SolarPoint)
    (battery : BatterySnapshot) (hour : ℕ) : List PricePoint :=
  ((futurePricesOf prices hour).mergeSort (fun a b => a.price ≤ b.price)).take
    (hoursNeededOf battery solar hour)

/-- `generateChargingPlan` from `forecast.js`: the hold / wait-for-solar /
grid-charging cascade, greedy cheapest-hour selection, and the rounded cost
estimate. -/
def generateChargingPlan (prices : List PricePoint) (solar : List SolarPoint)
    (battery : BatterySnapshot) (hour : ℕ) : ChargingPlan :=
  if neededKwhOf battery ≤ 0 then ⟨.hold, [], none, 0⟩
  else if max 0 (neededKwhOf battery - remainingSolarOf solar hour) ≤ 0 then
    ⟨.wait_for_solar, [], none, 0⟩
  else
    ⟨if (chargeSelection prices solar battery hour).any (fun h => h.hour == hour)
        then .charge_now else .wait_for_cheap,
     ((chargeSelection prices solar battery hour).map (·.hour)).mergeSort (· ≤ ·),
     (((chargeSelection prices solar battery hour).mergeSort
        (fun a b => a.hour ≤ b.hour)).head?).map (·.hour),
     jsRound2 (((chargeSelection prices solar battery hour).map
        (fun h => h.price * jsOr battery.chargeRateKw 6)).sum)⟩

/-!
## Alert evaluator (`server.js`, `checkAlerts`)
-/

/-- Alert types handled by `checkAlerts`. -/
inductive AlertType
  | low_soc
  | high_price
  | overload
deriving DecidableEq, Repr

/-- The claim-relevant fields of an alert record. -/
structure Alert where
  type : AlertType
  value : ℚ
  threshold : ℚ
deriving DecidableEq, Repr

/-- The `config.alerts` thresholds (each may be absent). -/
structure AlertsConfig where
  low_soc : Option ℚ
  high_price : Option ℚ
  overload_percent : Option ℚ
deriving DecidableEq, Repr

/-- The `state.alerts` record. -/
structure AlertsState where
  active : List Alert
  history : List Alert
deriving DecidableEq, Repr

/-- `alerts.low_soc && state.battery.soc < alerts.low_soc`. -/
def lowSocCond (cfg : AlertsConfig) (soc : ℚ) : Bool :=
  match cfg.low_soc with
  | some t => t ≠ 0 && soc < t
  | none => false

/-- `alerts.high_price && state.currentPrice && state.currentPrice > alerts.high_price`. -/
def highPriceCond (cfg : AlertsConfig) (price : Option ℚ) : Bool :=
  match cfg.high_price, price with
  | some t, some p => t ≠ 0 && p ≠ 0 && t < p
  | _, _ => false

/-- `alerts.overload_percent && state.usagePercent > alerts.overload_percent`. -/
def overloadCond (cfg : AlertsConfig) (usage : ℚ) : Bool :=
  match cfg.overload_percent with
  | some t => t ≠ 0 && t < usage
  | none => false

/-- One threshold section of `checkAlerts`: when the condition holds, push a
new alert onto `newAlerts` unless one of that type is already active; when it
does not hold, filter alerts of that type out of the active set. -/
def alertSection (cond : Bool) (ty : AlertType) (mk : Alert)
    (acc : List Alert × List Alert) : List Alert × List Alert :=
  if cond then
    if acc.1.any (fun a => a.type == ty) then acc
    else (acc.1, acc.2 ++ [mk])
  else (acc.1.filter (fun a => a.type != ty), acc.2)

/-- `checkAlerts` from `server.js`: the three threshold sections in source
order, then the new alerts are pushed onto `active`, `unshift`-ed onto
`history` (hence in reverse order), and the history is capped at 100. -/
def checkAlerts (cfg : AlertsConfig) (soc : ℚ) (price : Option ℚ) (usage : ℚ)
    (st : AlertsState) : AlertsState × List Alert :=
  let acc1 := alertSection (lowSocCond cfg soc) .low_soc
    ⟨.low_soc, soc, (cfg.low_soc).getD 0⟩ (st.active, [])
  let acc2 := alertSection (highPriceCond cfg price) .high_price
    ⟨.high_price, price.getD 0, (cfg.high_price).getD 0⟩ acc1
  let acc3 := alertSection (overloadCond cfg usage) .overload
    ⟨.overload, usage, (cfg.overload_percent).getD 0⟩ acc2
  (⟨acc3.1 ++ acc3.2, (acc3.2.reverse ++ st.history).take 100⟩, acc3.2)

/-!
## Helper lemmas
-/

/-- When the override has no expiry, or the expiry has not passed, the
expiry check leaves the state untouched and does not persist. -/
lemma clearExpiredTarget_of_fresh (now : ℤ) (s : ChargeState)
    (h : ∀ e, s.manualTargetExpiry = some e → now ≤ e) :
    clearExpiredTarget now s = (s, false) := by
  unfold clearExpiredTarget
  cases hE : s.manualTargetExpiry with
  | none => rfl
  | some e => simp [not_lt.mpr (h e hE)]

/-- When the expiry has passed, the expiry check clears both override fields
and persists. -/
lemma clearExpiredTarget_of_expired (now : ℤ) (s : ChargeState) (e : ℤ)
    (hE : s.manualTargetExpiry = some e) (hlt : e < now) :
    clearExpiredTarget now s = (⟨none, none, s.currentPrice, s.soc⟩, true) := by
  unfold clearExpiredTarget
  rw [hE]
  simp [hlt]

/-- The expiry check never touches the price or SOC readings and never sets
an override. -/
lemma clearExpiredTarget_cases (now : ℤ) (s : ChargeState) :
    clearExpiredTarget now s = (s, false) ∨
    clearExpiredTarget now s = (⟨none, none, s.currentPrice, s.soc⟩, true) := by
  unfold clearExpiredTarget
  cases s.manualTargetExpiry with
  | none => exact Or.inl rfl
  | some e =>
    by_cases h : e < now
    · exact Or.inr (by simp [h])
    · exact Or.inl (by simp [h])

/-- With optimization enabled, `decideCharging` returns the cascade's target
on the state left by the expiry check, propagating that state and the
persistence flag. -/
lemma decideCharging_spec (opt : BatOpt) (weekend : Bool) (now : ℤ)
    (s : ChargeState) (h : opt.enabled = true) :
    (decideCharging opt weekend now s).targetSoc =
      targetSocOf opt weekend (clearExpiredTarget now s).1 ∧
    (decideCharging opt weekend now s).newState = (clearExpiredTarget now s).1 ∧
    (decideCharging opt weekend now s).persisted = (clearExpiredTarget now s).2 ∧
    ((decideCharging opt weekend now s).decision = .charge ↔
      (clearExpiredTarget now s).1.soc <
        targetSocOf opt weekend (clearExpiredTarget now s).1 - 2) ∧
    ((decideCharging opt weekend now s).decision = .charge ∨
      (decideCharging opt weekend now s).decision = .hold) := by
  unfold decideCharging
  rw [h]
  simp only [Bool.not_true, Bool.false_eq_true, if_false]
  split
  · simp_all
  · simp_all

/-- The expiry check preserves the SOC reading. -/
lemma clearExpiredTarget_soc (now : ℤ) (s : ChargeState) :
    (clearExpiredTarget now s).1.soc = s.soc := by
  rcases clearExpiredTarget_cases now s with h | h <;> rw [h]

/-!
## C3 — charging state machine hysteresis
-/

/-- C3: with battery optimization enabled, `decideCharging` returns `charge`
if and only if `currentSoc < targetSoc - 2`, and `hold` otherwise; hence any
SOC inside the band `[targetSoc - 2, targetSoc]` (indeed any SOC
`≥ targetSoc - 2`) yields `hold`, never `charge`. -/
theorem decideCharging_hysteresis (opt : BatOpt) (weekend : Bool) (now : ℤ)
    (s : ChargeState) (h : opt.enabled = true) :
    ((decideCharging opt weekend now s).decision = .charge ↔
      s.soc < (decideCharging opt weekend now s).targetSoc - 2) ∧
    ((decideCharging opt weekend now s).targetSoc - 2 ≤ s.soc →
      (decideCharging opt weekend now s).decision = .hold) := by
  obtain ⟨ht, -, -, hiff, hcases⟩ := decideCharging_spec opt weekend now s h
  rw [ht, ← clearExpiredTarget_soc now s]
  refine ⟨hiff, fun hband => ?_⟩
  rcases hcases with hc | hc
  · exact absurd (hiff.mp hc) (not_lt.mpr hband)
  · exact hc

/-- Witness for C3: a concrete enabled configuration where the SOC 50 is
below target 80 minus the band, so the decision is `charge`. -/
theorem decideCharging_hysteresis_witness :
    (decideCharging ⟨true, some 80, none, none, none, false⟩ false 0
      ⟨none, none, none, 50⟩).decision = Decision.charge := by
  refine (decideCharging_hysteresis ⟨true, some 80, none, none, none, false⟩
    false 0 ⟨none, none, none, 50⟩ rfl).1.mpr ?_
  norm_num [decideCharging, clearExpiredTarget, targetSocOf, jsOr]

/-!
## C2 — manual override semantics
-/

/-- C2: with optimization enabled, an unexpired manual override fixes the
returned target SOC regardless of price, period or weekend flag; and the
moment the expiry has passed, the very same evaluation clears the override,
persists that fact, and falls through to the automatic cascade on the
cleared state. -/
theorem decideCharging_manual_override (opt : BatOpt) (weekend : Bool)
    (now : ℤ) (s : ChargeState) (h : opt.enabled = true) :
    (∀ m, s.manualTargetSoc = some m →
      (∀ e, s.manualTargetExpiry = some e → now ≤ e) →
      (decideCharging opt weekend now s).targetSoc = m) ∧
    (∀ e, s.manualTargetExpiry = some e → e < now →
      (decideCharging opt weekend now s).persisted = true ∧
      (decideCharging opt weekend now s).newState.manualTargetSoc = none ∧
      (decideCharging opt weekend now s).newState.manualTargetExpiry = none ∧
      (decideCharging opt weekend now s).targetSoc =
        targetSocOf opt weekend ⟨none, none, s.currentPrice, s.soc⟩) := by
  obtain ⟨ht, hns, hp, -, -⟩ := decideCharging_spec opt weekend now s h
  constructor
  · intro m hm hfresh
    rw [ht, clearExpiredTarget_of_fresh now s hfresh]
    unfold targetSocOf
    rw [hm]
  · intro e hE hlt
    rw [ht, hns, hp, clearExpiredTarget_of_expired now s e hE hlt]
    exact ⟨rfl, rfl, rfl, rfl⟩

/-- Witness for C2: a concrete override of 60% is returned while unexpired
(now = 100 ≤ 200), and at now = 300 the same evaluation clears and persists. -/
theorem decideCharging_manual_override_witness :
    (decideCharging ⟨true, some 80, some 10, none, none, true⟩ true 100
      ⟨some 60, some 200, some (1/2), 50⟩).targetSoc = 60 ∧
    (decideCharging ⟨true, some 80, some 10, none, none, true⟩ true 300
      ⟨some 60, some 200, some (1/2), 50⟩).persisted = true := by
  constructor
  · exact (decideCharging_manual_override _ true 100 _ rfl).1 60 rfl
      (fun e he => by
        simp only [Option.some.injEq] at he
        omega)
  · exact ((decideCharging_manual_override _ true 300 _ rfl).2 200 rfl
      (by norm_num)).1

/-!
## C8 — fallback when the price is unknown
-/

/-- Configuration used in the C8 counterexample: the shipped defaults of
`battery_optimization` with `keep_full_weekends` off. -/
def optC8 : BatOpt :=
  ⟨true, some 80, some 10, some (5/100), some (15/100), false⟩

/-- State used in the C8 counterexample: no override, no price reading. -/
def stateC8 : ChargeState := ⟨none, none, none, 0⟩

/-- C8 counterexample: on a weekday at 12:00 the active period is `punta`,
whose preconfigured target SOC in the default configuration is 20, yet with
the price unknown `decideCharging` returns 80 (`default_target_soc`), not
the period's target. -/
theorem decideCharging_price_unknown_counterexample :
    getCurrentPeriod false 12 = .punta ∧
    defaultPeriodTargetSoc .punta = 20 ∧
    (decideCharging optC8 false 0 stateC8).targetSoc = 80 ∧
    (80 : ℚ) ≠ 20 := by
  refine ⟨rfl, rfl, ?_, by norm_num⟩
  norm_num [decideCharging, clearExpiredTarget, targetSocOf, jsOr, optC8, stateC8]

/-- C8 amended: with optimization enabled, no active manual override, not in
the weekend keep-full case, and the current price unknown, the returned
target SOC is `default_target_soc || 80` — independent of the tariff period
(which `decideCharging` does not consult). -/
theorem decideCharging_price_unknown (opt : BatOpt) (weekend : Bool)
    (now : ℤ) (s : ChargeState) (h : opt.enabled = true)
    (hov : s.manualTargetSoc = none)
    (hw : (weekend && opt.keep_full_weekends) = false)
    (hp : s.currentPrice = none) :
    (decideCharging opt weekend now s).targetSoc =
      jsOr opt.default_target_soc 80 := by
  obtain ⟨ht, -, -, -, -⟩ := decideCharging_spec opt weekend now s h
  rw [ht]
  rcases clearExpiredTarget_cases now s with hc | hc <;>
    rw [hc] <;> unfold targetSocOf <;> simp [hov, hw, hp]

/-- Witness for C8 amended: the counterexample configuration applied at a
concrete input yields 80. -/
theorem decideCharging_price_unknown_witness :
    (decideCharging optC8 true 5 stateC8).targetSoc = 80 := by
  have h := decideCharging_price_unknown optC8 true 5 stateC8 rfl rfl rfl rfl
  rw [h]
  norm_num [jsOr, optC8]

/-!
## C10 — the interpolation branch never divides by zero
-/

/-- C10: for every configuration of the two price thresholds (equal or
mis-ordered included) and every known price, the linear-interpolation branch
of the cascade is reachable only when the price is strictly between the two
effective thresholds, which forces the divisor `maxP − minP` to be strictly
positive; in that branch `targetSocOf` equals the rounded interpolation with
that positive divisor. -/
theorem targetSocOf_interpolation_divisor_pos (opt : BatOpt) (weekend : Bool)
    (s : ChargeState) (p : ℚ) (hp : s.currentPrice = some p)
    (hov : s.manualTargetSoc = none)
    (hw : (weekend && opt.keep_full_weekends) = false)
    (h1 : ¬ p ≤ jsOr opt.always_charge_below_price (5/100))
    (h2 : ¬ jsOr opt.never_charge_above_price (15/100) ≤ p) :
    0 < jsOr opt.never_charge_above_price (15/100) -
        jsOr opt.always_charge_below_price (5/100) ∧
    targetSocOf opt weekend s =
      ((jsRound (100 - (p - jsOr opt.always_charge_below_price (5/100)) /
          (jsOr opt.never_charge_above_price (15/100) -
            jsOr opt.always_charge_below_price (5/100)) *
          (100 - jsOr opt.min_soc 10)) : ℤ) : ℚ) := by
  push_neg at h1 h2
  refine ⟨by linarith, ?_⟩
  unfold targetSocOf
  rw [hov, hp, hw]
  simp only [Bool.false_eq_true, if_false]
  rw [if_neg (not_le.mpr h1), if_neg (not_le.mpr h2)]

/-- Witness for C10: the default thresholds 0.05 and 0.15 with price 0.10
land in the interpolation branch with divisor 0.10 > 0. -/
theorem targetSocOf_interpolation_divisor_pos_witness :
    (0 : ℚ) < jsOr (some (15/100)) (15/100) - jsOr (some (5/100)) (5/100) := by
  refine (targetSocOf_interpolation_divisor_pos optC8 false
    ⟨none, none, some (1/10), 0⟩ (1/10) rfl rfl rfl ?_ ?_).1 <;>
    norm_num [jsOr, optC8]

/-!
## C4 — shedding never touches essential or switchless loads
-/

/-- Every id added to the shed list by one tier's inner loop comes from that
tier's candidate list. -/
lemma shedTier_mem (ok : Load → Bool) (excess : ℚ) :
    ∀ (ls : List Load) (acc : ℚ × List ℕ) (i : ℕ),
      i ∈ (shedTier ok excess ls acc).2 → i ∈ acc.2 ∨ ∃ l ∈ ls, l.id = i := by
  intro ls
  induction ls with
  | nil =>
    intro acc i h
    exact Or.inl h
  | cons l ls ih =>
    intro acc i h
    unfold shedTier at h
    split at h
    · exact Or.inl h
    · split at h
      · rcases ih _ _ h with h' | ⟨l', hl', hid⟩
        · rcases List.mem_append.mp h' with h'' | h''
          · exact Or.inl h''
          · refine Or.inr ⟨l, List.mem_cons_self l ls, ?_⟩
            have : i = l.id := by simpa using h''
            exact this.symm
        · exact Or.inr ⟨l', List.mem_cons_of_mem l hl', hid⟩
      · rcases ih _ _ h with h' | ⟨l', hl', hid⟩
        · exact Or.inl h'
        · exact Or.inr ⟨l', List.mem_cons_of_mem l hl', hid⟩

/-- Every id added by one tier of the overload branch belongs to a load of
that tier passing the candidate filter. -/
lemma shedStep_mem (ok : Load → Bool) (excess : ℚ) (loads : List Load)
    (pr : Priority) (acc : ℚ × List ℕ) (i : ℕ)
    (h : i ∈ ((if excess ≤ acc.1 then acc
        else shedTier ok excess (loads.filter (shedCandidate acc.2 pr)) acc)).2) :
    i ∈ acc.2 ∨ ∃ l ∈ loads, shedCandidate acc.2 pr l = true ∧ l.id = i := by
  split at h
  · exact Or.inl h
  · rcases shedTier_mem ok excess _ _ _ h with h' | ⟨l, hl, hid⟩
    · exact Or.inl h'
    · obtain ⟨hmem, hcand⟩ := List.mem_filter.mp hl
      exact Or.inr ⟨l, hmem, hcand, hid⟩

/-- C4: for every load list, prior shed list, command oracle and excess, any
id newly added to `shedLoads` by the overload branch belongs to a load whose
priority is `accessory` or `comfort` (never `essential`), that has a truthy
switch reference, and that was on. -/
theorem shedOverload_safety (ok : Load → Bool) (loads : List Load)
    (shed0 : List ℕ) (excess : ℚ) :
    ∀ i, i ∈ (shedOverload ok loads shed0 excess).2 → i ∉ shed0 →
      ∃ l ∈ loads, l.id = i ∧
        (l.priority = .accessory ∨ l.priority = .comfort) ∧
        l.priority ≠ .essential ∧
        jsTruthyStr l.switch_entity = true ∧ l.is_on = true := by
  intro i hmem hnot
  have hexp : shedOverload ok loads shed0 excess =
      (fun acc pr =>
        if excess ≤ acc.1 then acc
        else shedTier ok excess (loads.filter (shedCandidate acc.2 pr)) acc)
      ((fun acc pr =>
        if excess ≤ acc.1 then acc
        else shedTier ok excess (loads.filter (shedCandidate acc.2 pr)) acc)
        (0, shed0) Priority.accessory) Priority.comfort := rfl
  rw [hexp] at hmem
  have hfin : ∀ (acc : ℚ × List ℕ) (pr : Priority),
      (pr = Priority.accessory ∨ pr = Priority.comfort) →
      i ∈ ((if excess ≤ acc.1 then acc
        else shedTier ok excess (loads.filter (shedCandidate acc.2 pr)) acc)).2 →
      i ∈ acc.2 ∨ ∃ l ∈ loads, l.id = i ∧
        (l.priority = .accessory ∨ l.priority = .comfort) ∧
        l.priority ≠ .essential ∧
        jsTruthyStr l.switch_entity = true ∧ l.is_on = true := by
    intro acc pr hpr hmem'
    rcases shedStep_mem ok excess loads pr acc i hmem' with h' | ⟨l, hl, hcand, hid⟩
    · exact Or.inl h'
    · simp only [shedCandidate, Bool.and_eq_true, beq_iff_eq,
        Bool.not_eq_true'] at hcand
      obtain ⟨⟨⟨hprio, hsw⟩, hon⟩, -⟩ := hcand
      refine Or.inr ⟨l, hl, hid, ?_, ?_, hsw, hon⟩
      · rw [hprio]; exact hpr
      · rw [hprio]; rcases hpr with h | h <;> rw [h] <;> simp
  rcases hfin _ Priority.comfort (Or.inr rfl) hmem with h2 | h2
  · rcases hfin _ Priority.accessory (Or.inl rfl) h2 with h1 | h1
    · exact absurd h1 hnot
    · exact h1
  · exact h2

/-- A concrete load for the shedding scenarios: accessory, 500 W. -/
def loadA : Load := ⟨1, .accessory, some "switch.a", true, 500, some 500⟩

/-- A concrete load for the shedding scenarios: accessory, 900 W. -/
def loadB : Load := ⟨2, .accessory, some "switch.b", true, 900, some 900⟩

/-- A concrete load for the shedding scenarios: comfort, 300 W. -/
def loadC : Load := ⟨3, .comfort, some "switch.c", true, 300, some 300⟩

/-- A command oracle under which every switch command succeeds. -/
def allOk : Load → Bool := fun _ => true

/-- Witness for C4: in the A/B/C scenario, id 1 was shed, and the theorem
produces its accessory, switch-capable, on load. -/
theorem shedOverload_safety_witness :
    ∃ l ∈ [loadA, loadB, loadC], l.id = 1 ∧
      (l.priority = .accessory ∨ l.priority = .comfort) ∧
      l.priority ≠ .essential ∧
      jsTruthyStr l.switch_entity = true ∧ l.is_on = true := by
  refine shedOverload_safety allOk [loadA, loadB, loadC] [] 700 1 ?_ (by simp)
  norm_num [shedOverload, shedTier, shedCandidate, shedPower, jsOrQ, jsOr,
    jsTruthyStr, loadA, loadB, loadC, allOk]

/-!
## C5 — shedding order within a tier
-/

/-- C5 counterexample: with accessory loads A(500 W), B(900 W) and comfort
load C(300 W), all on and switch-capable, and excess 700 W, the engine does
not sort the tier by descending power: it sheds A first (configuration
order) and then B, so the shed set is `[1, 2]`, not `[2]` (B alone) as the
claim requires. -/
theorem shedOverload_order_counterexample :
    (shedOverload allOk [loadA, loadB, loadC] [] 700).2 = [1, 2] ∧
    ([1, 2] : List ℕ) ≠ [2] := by
  refine ⟨?_, by simp⟩
  norm_num [shedOverload, shedTier, shedCandidate, shedPower, jsOrQ, jsOr,
    jsTruthyStr, loadA, loadB, loadC, allOk]

/-- C5 amended: candidates are processed tier by tier in the fixed order
accessory then comfort, within each tier in configuration-list order (no
power sort), stopping as soon as the saved power reaches the excess: in the
A/B/C scenario A and B are shed (saved 1400 ≥ 700) and the comfort load C is
untouched. -/
theorem shedOverload_order_amended :
    shedOverload allOk [loadA, loadB, loadC] [] 700 = (1400, [1, 2]) ∧
    (3 : ℕ) ∉ (shedOverload allOk [loadA, loadB, loadC] [] 700).2 := by
  have h : shedOverload allOk [loadA, loadB, loadC] [] 700 = (1400, [1, 2]) := by
    norm_num [shedOverload, shedTier, shedCandidate, shedPower, jsOrQ, jsOr,
      jsTruthyStr, loadA, loadB, loadC, allOk]
  rw [h]
  exact ⟨rfl, by simp⟩

/-!
## C6 — restoration order and eligibility
-/

/-- The restoration loop only ever removes ids from the live shed list. -/
lemma restoreGo_subset (ok : Load → Bool) (loads : List Load) (headroom : ℚ) :
    ∀ (pend shed acts : List ℕ),
      (restoreGo ok loads headroom pend shed acts).1 ⊆ shed := by
  intro pend
  induction pend with
  | nil =>
    intro shed acts
    exact fun _ h => h
  | cons j rest ih =>
    intro shed acts
    unfold restoreGo
    cases hfind : loads.find? (fun l => l.id == j) with
    | none => exact ih shed acts
    | some l =>
      dsimp only
      by_cases hle : jsOr l.max_power 1000 ≤ headroom * (8/10)
      · rw [if_pos hle]
        by_cases hok : ok l = true
        · rw [if_pos hok]
          exact fun x hx => List.mem_of_mem_filter (ih _ _ hx)
        · rw [if_neg hok]
          exact ih shed acts
      · rw [if_neg hle]
        exact ih shed acts

/-- Any id removed from the shed list by the restoration loop corresponds to
a found load whose `max_power || 1000` fits under `headroom × 0.8`. -/
lemma restoreGo_removed (ok : Load → Bool) (loads : List Load) (headroom : ℚ) :
    ∀ (pend shed acts : List ℕ) (i : ℕ),
      i ∈ shed → i ∉ (restoreGo ok loads headroom pend shed acts).1 →
      ∃ l, loads.find? (fun l' => l'.id == i) = some l ∧
        jsOr l.max_power 1000 ≤ headroom * (8/10) := by
  intro pend
  induction pend with
  | nil =>
    intro shed acts i hi hni
    exact absurd hi hni
  | cons j rest ih =>
    intro shed acts i hi hni
    unfold restoreGo at hni
    cases hfind : loads.find? (fun l => l.id == j) with
    | none =>
      rw [hfind] at hni
      exact ih _ _ _ hi hni
    | some l =>
      rw [hfind] at hni
      dsimp only at hni
      by_cases hle : jsOr l.max_power 1000 ≤ headroom * (8/10)
      · rw [if_pos hle] at hni
        by_cases hok : ok l = true
        · rw [if_pos hok] at hni
          by_cases hij : i = j
          · subst hij
            exact ⟨l, hfind, hle⟩
          · refine ih _ _ _ ?_ hni
            exact List.mem_filter.mpr ⟨hi, by simp [hij]⟩
        · rw [if_neg hok] at hni
          exact ih _ _ _ hi hni
      · rw [if_neg hle] at hni
        exact ih _ _ _ hi hni

/-- A concrete shed load for the restoration scenarios: comfort, 200 W max. -/
def loadD : Load := ⟨4, .comfort, some "switch.d", false, 0, some 200⟩

/-- A concrete shed load for the restoration scenarios: accessory, 150 W max. -/
def loadE : Load := ⟨5, .accessory, some "switch.e", false, 0, some 150⟩

/-- C6 counterexample: with shed loads E(accessory, 150 W) shed before
D(comfort, 200 W) and headroom 300 W, the restoration branch issues its
`turnOn` commands in shed-list order `[5, 4]` (E before D), not in the
claimed reverse-priority order comfort-before-accessory `[4, 5]`. -/
theorem restoreShed_order_counterexample :
    (restoreShed allOk [loadD, loadE] [5, 4] 300).2 = [5, 4] ∧
    ([5, 4] : List ℕ) ≠ [4, 5] := by
  refine ⟨?_, by simp⟩
  norm_num [restoreShed, restoreGo, jsOr, loadD, loadE, allOk]

/-- C6 amended: the restoration branch considers shed ids in the order they
appear in `shedLoads` (no tier or power ordering); the final shed list is a
subset of the initial one, and a load is restored only if it is found in the
load list and its `max_power || 1000` is at most `headroom × 0.8` (the
hysteresis margin), with `headroom` computed once before the loop. -/
theorem restoreShed_eligibility (ok : Load → Bool) (loads : List Load)
    (shed0 : List ℕ) (headroom : ℚ) :
    (∀ i ∈ (restoreShed ok loads shed0 headroom).1, i ∈ shed0) ∧
    (∀ i, i ∈ shed0 → i ∉ (restoreShed ok loads shed0 headroom).1 →
      ∃ l, loads.find? (fun l' => l'.id == i) = some l ∧
        jsOr l.max_power 1000 ≤ headroom * (8/10)) := by
  constructor
  · exact fun i hi => restoreGo_subset ok loads headroom shed0 shed0 [] hi
  · exact fun i hi hni => restoreGo_removed ok loads headroom shed0 shed0 [] i hi hni

/-- Witness for C6 amended: in the D/E scenario id 4 is restored, and the
theorem recovers load D with 200 ≤ 300 × 0.8 = 240. -/
theorem restoreShed_eligibility_witness :
    ∃ l, ([loadD, loadE].find? (fun l' => l'.id == 4) = some l ∧
      jsOr l.max_power 1000 ≤ (300 : ℚ) * (8/10)) := by
  refine (restoreShed_eligibility allOk [loadD, loadE] [5, 4] 300).2 4
    (by simp) ?_
  have h : (restoreShed allOk [loadD, loadE] [5, 4] 300).1 = [] := by
    norm_num [restoreShed, restoreGo, jsOr, loadD, loadE, allOk]
  rw [h]
  simp

/-!
## C9 — edge-triggered alerts
-/

/-- Alert configuration for the C9 scenario: low-SOC threshold 15, the other
thresholds unset. -/
def cfgC9 : AlertsConfig := ⟨some 15, none, none⟩

/-- One state refresh of the C9 scenario: `checkAlerts` applied at the given
SOC with no price reading and zero usage. -/
def alertsStep (soc : ℚ) (st : AlertsState) : AlertsState :=
  (checkAlerts cfgC9 soc none 0 st).1

/-- The low-SOC alert record created at SOC 14 against threshold 15. -/
def alertLow14 : Alert := ⟨.low_soc, 14, 15⟩

/-- C9: the alert evaluator is edge-triggered with at most one active alert
per type: over the SOC sequence 20 → 14 → 14 → 16 with threshold 15,
exactly one `low_soc` alert is created (on the 20 → 14 step, appended once
to history), the repeated 14 creates no second alert, the 14 → 16 step
retires it, and after every step the active alerts have pairwise distinct
types. -/
theorem checkAlerts_edge_triggered :
    (checkAlerts cfgC9 20 none 0 ⟨[], []⟩).2 = [] ∧
    alertsStep 20 ⟨[], []⟩ = ⟨[], []⟩ ∧
    (checkAlerts cfgC9 14 none 0 (alertsStep 20 ⟨[], []⟩)).2 = [alertLow14] ∧
    alertsStep 14 (alertsStep 20 ⟨[], []⟩) = ⟨[alertLow14], [alertLow14]⟩ ∧
    (checkAlerts cfgC9 14 none 0
      (alertsStep 14 (alertsStep 20 ⟨[], []⟩))).2 = [] ∧
    alertsStep 14 (alertsStep 14 (alertsStep 20 ⟨[], []⟩)) =
      ⟨[alertLow14], [alertLow14]⟩ ∧
    (checkAlerts cfgC9 16 none 0
      (alertsStep 14 (alertsStep 14 (alertsStep 20 ⟨[], []⟩)))).2 = [] ∧
    alertsStep 16 (alertsStep 14 (alertsStep 14 (alertsStep 20 ⟨[], []⟩))) =
      ⟨[], [alertLow14]⟩ ∧
    (alertsStep 20 ⟨[], []⟩).active.Pairwise (fun a b => a.type ≠ b.type) ∧
    (alertsStep 14 (alertsStep 20 ⟨[], []⟩)).active.Pairwise
      (fun a b => a.type ≠ b.type) ∧
    (alertsStep 14 (alertsStep 14 (alertsStep 20 ⟨[], []⟩))).active.Pairwise
      (fun a b => a.type ≠ b.type) ∧
    (alertsStep 16 (alertsStep 14 (alertsStep 14
      (alertsStep 20 ⟨[], []⟩)))).active.Pairwise
      (fun a b => a.type ≠ b.type) := by
  have h20 : alertsStep 20 ⟨[], []⟩ = ⟨[], []⟩ := by
    norm_num [alertsStep, checkAlerts, alertSection, lowSocCond, highPriceCond,
      overloadCond, cfgC9]
  have h14 : alertsStep 14 ⟨[], []⟩ = ⟨[alertLow14], [alertLow14]⟩ := by
    norm_num [alertsStep, checkAlerts, alertSection, lowSocCond, highPriceCond,
      overloadCond, cfgC9, alertLow14]
  have h14b : alertsStep 14 ⟨[alertLow14], [alertLow14]⟩ =
      ⟨[alertLow14], [alertLow14]⟩ := by
    norm_num [alertsStep, checkAlerts, alertSection, lowSocCond, highPriceCond,
      overloadCond, cfgC9, alertLow14]
    decide
  have h16 : alertsStep 16 ⟨[alertLow14], [alertLow14]⟩ = ⟨[], [alertLow14]⟩ := by
    norm_num [alertsStep, checkAlerts, alertSection, lowSocCond, highPriceCond,
      overloadCond, cfgC9, alertLow14]
  refine ⟨?_, h20, ?_, ?_, ?_, ?_, ?_, ?_, ?_, ?_, ?_, ?_⟩ <;>
    (try simp only [h20, h14, h14b, h16]) <;>
    norm_num [alertsStep, checkAlerts, alertSection, lowSocCond,
      highPriceCond, overloadCond, cfgC9, alertLow14]

/-!
## C7 — forecast-driven charging plan cascade
-/

/-- Battery snapshot for the C7 scenarios: 10 kWh capacity, SOC 50 → 80,
charge rate 6 kW, hence 3 kWh needed from the grid when there is no solar. -/
def batteryC7 : BatterySnapshot := ⟨some 10, some 50, some 80, some 6⟩

/-- C7 counterexample: with 3 kWh needed from the grid the claim requires
exactly `⌈3/6⌉ = 1` selected hour, but with an empty price forecast the plan
selects 0 hours (`slice` returns what is available), falling to
`wait_for_cheap` with no `nextChargeHour`. -/
theorem generateChargingPlan_counterexample :
    generateChargingPlan [] [] batteryC7 10 =
      ⟨.wait_for_cheap, [], none, 0⟩ ∧
    hoursNeededOf batteryC7 [] 10 = 1 ∧
    (generateChargingPlan [] [] batteryC7 10).chargeHours.length = 0 ∧
    (0 : ℕ) ≠ 1 := by
  have h1 : generateChargingPlan [] [] batteryC7 10 =
      ⟨.wait_for_cheap, [], none, 0⟩ := by
    norm_num [generateChargingPlan, chargeSelection, futurePricesOf,
      hoursNeededOf, neededKwhOf, remainingSolarOf, jsOr, jsRound2, jsRound,
      batteryC7]
  have h2 : hoursNeededOf batteryC7 [] 10 = 1 := by
    norm_num [hoursNeededOf, neededKwhOf, remainingSolarOf, jsOr, batteryC7]
    have : ⌈(1 : ℚ)/2⌉ = 1 := by
      rw [Int.ceil_eq_iff]
      norm_num
    rw [this]
    rfl
  exact ⟨h1, h2, by rw [h1]; rfl, by simp⟩

/-- C7 amended: `generateChargingPlan` follows the step cascade, with the
grid step selecting `min(hoursNeeded, available future hours)` cheapest
future hours of today (stable ascending by price), `charge_now` iff the
current hour is among them, `nextChargeHour` the earliest selected hour when
any is selected, and the estimated cost the sum of `price × chargeRateKw`
over the selected hours rounded to 2 decimals. -/
theorem generateChargingPlan_cascade (prices : List PricePoint)
    (solar : List SolarPoint) (battery : BatterySnapshot) (hour : ℕ)
    (hrate : 0 < jsOr battery.chargeRateKw 6) :
    (neededKwhOf battery ≤ 0 →
      generateChargingPlan prices solar battery hour = ⟨.hold, [], none, 0⟩) ∧
    (0 < neededKwhOf battery →
      neededKwhOf battery ≤ remainingSolarOf solar hour →
      generateChargingPlan prices solar battery hour =
        ⟨.wait_for_solar, [], none, 0⟩) ∧
    (0 < neededKwhOf battery →
      remainingSolarOf solar hour < neededKwhOf battery →
      (generateChargingPlan prices solar battery hour).chargeHours.length =
        min (hoursNeededOf battery solar hour)
          (futurePricesOf prices hour).length ∧
      1 ≤ hoursNeededOf battery solar hour ∧
      (∃ rest, (chargeSelection prices solar battery hour ++ rest).Perm
          (futurePricesOf prices hour) ∧
        ∀ a ∈ chargeSelection prices solar battery hour, ∀ b ∈ rest,
          a.price ≤ b.price) ∧
      ((generateChargingPlan prices solar battery hour).action = .charge_now ↔
        ∃ pt ∈ chargeSelection prices solar battery hour, pt.hour = hour) ∧
      ((generateChargingPlan prices solar battery hour).action =
          .wait_for_cheap ↔
        ¬ ∃ pt ∈ chargeSelection prices solar battery hour, pt.hour = hour) ∧
      (chargeSelection prices solar battery hour = [] →
        (generateChargingPlan prices solar battery hour).nextChargeHour =
          none) ∧
      (chargeSelection prices solar battery hour ≠ [] →
        ∃ pt ∈ chargeSelection prices solar battery hour,
          (generateChargingPlan prices solar battery hour).nextChargeHour =
            some pt.hour ∧
          ∀ q ∈ chargeSelection prices solar battery hour, pt.hour ≤ q.hour) ∧
      (generateChargingPlan prices solar battery hour).estimatedCost =
        jsRound2 (((chargeSelection prices solar battery hour).map
          (fun h => h.price * jsOr battery.chargeRateKw 6)).sum)) := by
  refine ⟨fun hneed => ?_, fun hneed hsolar => ?_, fun hneed hsolar => ?_⟩
  · unfold generateChargingPlan
    rw [if_pos hneed]
  · unfold generateChargingPlan
    rw [if_neg (not_le.mpr hneed),
      if_pos (max_le le_rfl (by linarith))]
  · have hpos : ¬ max 0 (neededKwhOf battery - remainingSolarOf solar hour) ≤ 0 := by
      rw [max_le_iff, not_and_or]
      exact Or.inr (not_le.mpr (by linarith))
    have hplan : generateChargingPlan prices solar battery hour =
        ⟨if (chargeSelection prices solar battery hour).any
            (fun h => h.hour == hour) then .charge_now else .wait_for_cheap,
         ((chargeSelection prices solar battery hour).map (·.hour)).mergeSort
           (fun a b => a ≤ b),
         (((chargeSelection prices solar battery hour).mergeSort
            (fun a b => a.hour ≤ b.hour)).head?).map (·.hour),
         jsRound2 (((chargeSelection prices solar battery hour).map
            (fun h => h.price * jsOr battery.chargeRateKw 6)).sum)⟩ := by
      unfold generateChargingPlan
      rw [if_neg (not_le.mpr hneed), if_neg hpos]
    have hnfg : 0 < max 0 (neededKwhOf battery - remainingSolarOf solar hour) := by
      rw [lt_max_iff]
      exact Or.inr (by linarith)
    refine ⟨?_, ?_, ?_, ?_, ?_, ?_, ?_, ?_⟩
    · rw [hplan]
      simp [chargeSelection]
    · have hceil : 0 < ⌈max 0 (neededKwhOf battery -
          remainingSolarOf solar hour) / jsOr battery.chargeRateKw 6⌉ := by
        rw [Int.ceil_pos]
        exact div_pos hnfg hrate
      unfold hoursNeededOf
      omega
    · refine ⟨((futurePricesOf prices hour).mergeSort
        (fun a b => a.price ≤ b.price)).drop
          (hoursNeededOf battery solar hour), ?_, ?_⟩
      · rw [chargeSelection, List.take_append_drop]
        exact List.mergeSort_perm _ _
      · have hsorted : (((futurePricesOf prices hour).mergeSort
            (fun a b => a.price ≤ b.price))).Pairwise
              (fun a b => (decide (a.price ≤ b.price)) = true) := by
          apply List.sorted_mergeSort
          · intro a b c hab hbc
            simp only [decide_eq_true_eq] at *
            exact le_trans hab hbc
          · intro a b
            simpa using le_total a.price b.price
        rw [← List.take_append_drop (hoursNeededOf battery solar hour)
          ((futurePricesOf prices hour).mergeSort
            (fun a b => a.price ≤ b.price))] at hsorted
        have := (List.pairwise_append.mp hsorted).2.2
        intro a ha b hb
        have h' := this a ha b hb
        simpa using h'
    · rw [hplan]
      simp only [List.any_eq_true, beq_iff_eq]
      by_cases hany : ∃ pt ∈ chargeSelection prices solar battery hour,
          pt.hour = hour
      · simp [hany]
      · simp [hany]
    · rw [hplan]
      simp only [List.any_eq_true, beq_iff_eq]
      by_cases hany : ∃ pt ∈ chargeSelection prices solar battery hour,
          pt.hour = hour
      · simp [hany]
      · simp [hany]
    · intro hsel
      rw [hplan, hsel]
      simp
    · intro hsel
      have hlen : ((chargeSelection prices solar battery hour).mergeSort
          (fun a b => a.hour ≤ b.hour)).length ≠ 0 := by
        rw [List.length_mergeSort]
        exact fun h => hsel (List.length_eq_zero.mp h)
      have hsortH : (((chargeSelection prices solar battery hour).mergeSort
          (fun a b => a.hour ≤ b.hour))).Pairwise
            (fun a b => (decide (a.hour ≤ b.hour)) = true) := by
        apply List.sorted_mergeSort
        · intro a b c hab hbc
          simp only [decide_eq_true_eq] at *
          exact le_trans hab hbc
        · intro a b
          simpa using Nat.le_total a.hour b.hour
      cases hby : (chargeSelection prices solar battery hour).mergeSort
          (fun a b => a.hour ≤ b.hour) with
      | nil => exact absurd (by rw [hby]; rfl) hlen
      | cons h0 tail =>
        refine ⟨h0, ?_, ?_, ?_⟩
        · have hmem : h0 ∈ (chargeSelection prices solar battery hour).mergeSort
              (fun a b => a.hour ≤ b.hour) := by
            rw [hby]
            exact List.mem_cons_self h0 tail
          exact List.mem_mergeSort.mp hmem
        · rw [hplan, hby]
          rfl
        · intro q hq
          have hq' : q ∈ h0 :: tail := by
            rw [← hby, List.mem_mergeSort]
            exact hq
          rcases List.mem_cons.mp hq' with rfl | hq''
          · exact le_rfl
          · rw [hby] at hsortH
            have := (List.pairwise_cons.mp hsortH).1 q hq''
            simpa using this
    · rw [hplan]

/-- Witness for C7 amended: the hold step at a concrete snapshot whose
target is below the current SOC, and the grid step's hour count at a
concrete two-hour forecast. -/
theorem generateChargingPlan_cascade_witness :
    generateChargingPlan [] [] ⟨some 10, some 80, some 50, some 6⟩ 10 =
      ⟨.hold, [], none, 0⟩ ∧
    (generateChargingPlan [⟨10, 1/10⟩, ⟨11, 2/10⟩] [] batteryC7 10).chargeHours.length =
      min (hoursNeededOf batteryC7 [] 10)
        (futurePricesOf [⟨10, 1/10⟩, ⟨11, 2/10⟩] 10).length := by
  constructor
  · refine (generateChargingPlan_cascade [] []
      ⟨some 10, some 80, some 50, some 6⟩ 10 (by norm_num [jsOr])).1 ?_
    norm_num [neededKwhOf, jsOr]
  · refine ((generateChargingPlan_cascade [⟨10, 1/10⟩, ⟨11, 2/10⟩] []
      batteryC7 10 (by norm_num [jsOr, batteryC7])).2.2 ?_ ?_).1
    · norm_num [neededKwhOf, jsOr, batteryC7]
    · norm_num [neededKwhOf, remainingSolarOf, jsOr, batteryC7]

/-!
## C1 — price response of the target SOC
-/

/-- The price-response shape of the cascade with effective thresholds `L`
(always-charge-below), `H` (never-charge-above) and floor `M`, exactly as
the three price branches of `decideCharging` evaluate a known price. -/
def priceCascade (L H M : ℚ) (p : ℚ) : ℚ :=
  if p ≤ L then 100
  else if H ≤ p then M
  else ((jsRound (100 - (p - L) / (H - L) * (100 - M)) : ℤ) : ℚ)

/-- `targetAtPrice` is the price cascade at the effective configuration
values. -/
lemma targetAtPrice_eq_priceCascade (opt : BatOpt) (p : ℚ) :
    targetAtPrice opt p =
      priceCascade (jsOr opt.always_charge_below_price (5/100))
        (jsOr opt.never_charge_above_price (15/100))
        (jsOr opt.min_soc 10) p := rfl

/-- Bounds for the rounded interpolation on the open middle interval, for an
integer floor value `M = k ≤ 100`. -/
lemma jsRound_interp_bounds (L H M p : ℚ) (k : ℤ) (hk : (k : ℚ) = M)
    (hM : M ≤ 100) (hLp : L < p) (hpH : p < H) :
    M ≤ ((jsRound (100 - (p - L) / (H - L) * (100 - M)) : ℤ) : ℚ) ∧
    ((jsRound (100 - (p - L) / (H - L) * (100 - M)) : ℤ) : ℚ) ≤ 100 := by
  have hHL : 0 < H - L := by linarith
  have hr0 : 0 ≤ (p - L) / (H - L) := div_nonneg (by linarith) (le_of_lt hHL)
  have hr1 : (p - L) / (H - L) ≤ 1 := by
    rw [div_le_one hHL]
    linarith
  have hv1 : M ≤ 100 - (p - L) / (H - L) * (100 - M) := by nlinarith
  have hv2 : 100 - (p - L) / (H - L) * (100 - M) ≤ 100 := by nlinarith
  constructor
  · have hZ : k ≤ jsRound (100 - (p - L) / (H - L) * (100 - M)) := by
      unfold jsRound
      rw [Int.le_floor, hk]
      linarith
    calc M = (k : ℚ) := hk.symm
    _ ≤ _ := by exact_mod_cast hZ
  · have hZ : jsRound (100 - (p - L) / (H - L) * (100 - M)) < 101 := by
      unfold jsRound
      rw [Int.floor_lt]
      push_cast
      linarith
    have : jsRound (100 - (p - L) / (H - L) * (100 - M)) ≤ 100 := by omega
    exact_mod_cast this

/-- The rounded interpolation is antitone in the price. -/
lemma jsRound_interp_mono (L H M p q : ℚ) (hHL : L < H) (hM : M ≤ 100)
    (hpq : p ≤ q) :
    ((jsRound (100 - (q - L) / (H - L) * (100 - M)) : ℤ) : ℚ) ≤
    ((jsRound (100 - (p - L) / (H - L) * (100 - M)) : ℤ) : ℚ) := by
  have h0 : 0 < H - L := by linarith
  have hrr : (p - L) / (H - L) ≤ (q - L) / (H - L) :=
    (div_le_div_iff_of_pos_right h0).mpr (by linarith)
  have hmul := mul_le_mul_of_nonneg_right hrr (by linarith : (0 : ℚ) ≤ 100 - M)
  have hfl : jsRound (100 - (q - L) / (H - L) * (100 - M)) ≤
      jsRound (100 - (p - L) / (H - L) * (100 - M)) := by
    unfold jsRound
    exact Int.floor_mono (by linarith)
  exact_mod_cast hfl

/-- Bounds of the price cascade for every price. -/
lemma priceCascade_bounds (L H M : ℚ) (k : ℤ) (hk : (k : ℚ) = M)
    (hM : M ≤ 100) (p : ℚ) :
    M ≤ priceCascade L H M p ∧ priceCascade L H M p ≤ 100 := by
  unfold priceCascade
  split
  · exact ⟨hM, le_rfl⟩
  · split
    · exact ⟨le_rfl, hM⟩
    · next h1 h2 =>
      exact jsRound_interp_bounds L H M p k hk hM (not_le.mp h1) (not_le.mp h2)

/-- The price cascade is monotonically non-increasing in the price. -/
lemma priceCascade_antitone (L H M : ℚ) (k : ℤ) (hk : (k : ℚ) = M)
    (hM : M ≤ 100) (hLH : L < H) (p q : ℚ) (hpq : p ≤ q) :
    priceCascade L H M q ≤ priceCascade L H M p := by
  have hbp := priceCascade_bounds L H M k hk hM p
  have hbq := priceCascade_bounds L H M k hk hM q
  unfold priceCascade
  by_cases hqL : q ≤ L
  · rw [if_pos hqL, if_pos (le_trans hpq hqL)]
  · rw [if_neg hqL]
    by_cases hpL : p ≤ L
    · rw [if_pos hpL]
      have h100 := hbq.2
      unfold priceCascade at h100
      rw [if_neg hqL] at h100
      exact h100
    · rw [if_neg hpL]
      by_cases hHp : H ≤ p
      · rw [if_pos hHp, if_pos (le_trans hHp hpq)]
      · rw [if_neg hHp]
        by_cases hHq : H ≤ q
        · rw [if_pos hHq]
          have hMp := hbp.1
          unfold priceCascade at hMp
          rw [if_neg hpL, if_neg hHp] at hMp
          exact hMp
        · rw [if_neg hHq]
          exact jsRound_interp_mono L H M p q hLH hM hpq

/-- Configuration for the C1 counterexample: equal thresholds 0.10/0.10. -/
def optC1 : BatOpt := ⟨true, some 80, some 10, some (1/10), some (1/10), false⟩

/-- C1 counterexample: with equal effective thresholds
`lowThresh = highThresh = 0.10` (allowed by the claim's hypothesis
`lowThresh ≤ highThresh`) and `minSoc = 10`, the target at
`p = highThresh` is 100 — the low-price rule fires first — and not
`minSoc = 10` as the claim requires. -/
theorem targetAtPrice_counterexample :
    jsOr optC1.always_charge_below_price (5/100) ≤
      jsOr optC1.never_charge_above_price (15/100) ∧
    jsOr optC1.min_soc 10 = 10 ∧
    targetAtPrice optC1 (jsOr optC1.never_charge_above_price (15/100)) = 100 ∧
    (100 : ℚ) ≠ 10 := by
  norm_num [targetAtPrice, targetSocOf, jsOr, optC1]

/-- C1 amended: for every configuration whose effective thresholds satisfy
`lowThresh < highThresh` (strict) and whose effective `minSoc` is an integer
`≤ 100`, with no override and outside the weekend keep-full case the target
SOC as a function of the known price is monotonically non-increasing, lies
in `[minSoc, 100]`, equals 100 at `lowThresh` and equals `minSoc` at
`highThresh`.  (In the degenerate case `lowThresh = highThresh` the target
at that price is 100, not `minSoc`, because the low-price rule fires
first.) -/
theorem targetAtPrice_price_response (opt : BatOpt) (k : ℤ)
    (hk : (k : ℚ) = jsOr opt.min_soc 10)
    (hM : jsOr opt.min_soc 10 ≤ 100)
    (hLH : jsOr opt.always_charge_below_price (5/100) <
      jsOr opt.never_charge_above_price (15/100)) :
    (∀ p : ℚ, jsOr opt.min_soc 10 ≤ targetAtPrice opt p ∧
      targetAtPrice opt p ≤ 100) ∧
    (∀ p q : ℚ, p ≤ q → targetAtPrice opt q ≤ targetAtPrice opt p) ∧
    targetAtPrice opt (jsOr opt.always_charge_below_price (5/100)) = 100 ∧
    targetAtPrice opt (jsOr opt.never_charge_above_price (15/100)) =
      jsOr opt.min_soc 10 := by
  refine ⟨fun p => ?_, fun p q hpq => ?_, ?_, ?_⟩
  · rw [targetAtPrice_eq_priceCascade]
    exact priceCascade_bounds _ _ _ k hk hM p
  · rw [targetAtPrice_eq_priceCascade, targetAtPrice_eq_priceCascade]
    exact priceCascade_antitone _ _ _ k hk hM hLH p q hpq
  · rw [targetAtPrice_eq_priceCascade]
    unfold priceCascade
    rw [if_pos le_rfl]
  · rw [targetAtPrice_eq_priceCascade]
    unfold priceCascade
    rw [if_neg (not_le.mpr hLH), if_pos le_rfl]

/-- Witness for C1 amended: at the default thresholds 0.05/0.15 with
integer floor 10, the target at the high threshold is the floor. -/
theorem targetAtPrice_price_response_witness :
    targetAtPrice optC8 (15/100) = 10 := by
  have h := (targetAtPrice_price_response optC8 10
    (by norm_num [jsOr, optC8]) (by norm_num [jsOr, optC8])
    (by norm_num [jsOr, optC8])).2.2.2
  have e1 : jsOr optC8.never_charge_above_price (15/100) = 15/100 := by
    norm_num [jsOr, optC8]
  have e2 : jsOr optC8.min_soc 10 = 10 := by
    norm_num [jsOr, optC8]
  rw [e1, e2] at h
  exact h

end VoltAssistant
